import Mathlib

/-!
Verification of the expense-tracker tool server (`src/main.py`).

The server exposes five operations over one remote table
(`add_expense`, `list_expenses`, `summarize`, `delete_expense`,
`update_expense`) plus a static category resource.  We embed the
operations shallowly:

* the remote store (one table of expense rows) is an explicit `Store`
  value threaded through every operation; its insert / select / update /
  delete behaviour follows the store-collaborator contract (a row gets a
  fresh server-assigned `id` and `created_at`; selects filter by an
  inclusive text range on `date` and order by `date` descending then
  `id` descending; update and delete are keyed by `id` equality);
* the remote text comparison used for the date range is byte-wise
  (`List Char`) lexicographic order, defined below as `strLtB`/`strLeB`;
* Python's `datetime.strptime(date, "%Y-%m-%d")` is embedded as
  `pyStrptime` (four-digit year, month and day matched by the
  `1[0-2]|0[1-9]|[1-9]` / `3[01]|[12]\d|0[1-9]|[1-9]` alternations with
  the whole string consumed, then the calendar check of the `datetime`
  constructor: year at least 1, day at most the length of the month,
  Gregorian leap years);
* a possible store-level exception is modelled by an extra
  `storeFail : Option String` argument: `some m` means the remote call
  raises with message `m`, which the operation's handler turns into an
  error envelope;
* Python floats are modelled as `Rat`;
* every operation returns `(response, store, storeCalls)` where
  `storeCalls` counts the store round trips the call performed, so that
  "no store call is issued" is expressible.
-/

/-! ### Byte-wise lexicographic string order (remote text comparison) -/

/-- Strict lexicographic order on character lists, as the remote store
compares `date` strings. -/
def strLtB : List Char → List Char → Bool
  | [], [] => false
  | [], _ :: _ => true
  | _ :: _, [] => false
  | a :: as, b :: bs => if a < b then true else if b < a then false else strLtB as bs

/-- Non-strict lexicographic order on character lists. -/
def strLeB (s t : List Char) : Bool := !(strLtB t s)

/-! ### The date validation of `datetime.strptime(date, "%Y-%m-%d")` -/

/-- Numeric value of a decimal digit character. -/
def digitVal (c : Char) : Nat := c.toNat - 48

/-- Match exactly four decimal digits (the `%Y` directive). -/
def parse4 : List Char → Option (Nat × List Char)
  | a :: b :: c :: d :: rest =>
      if a.isDigit ∧ b.isDigit ∧ c.isDigit ∧ d.isDigit then
        some (1000 * digitVal a + 100 * digitVal b + 10 * digitVal c + digitVal d, rest)
      else none
  | _ => none

/-- Match the `%m` / `%d` directives: a two-digit number between 1 and
`hi` if the next two characters form one, otherwise a single digit
between 1 and 9. -/
def parseMD (hi : Nat) : List Char → Option (Nat × List Char)
  | a :: b :: rest =>
      if a.isDigit ∧ b.isDigit ∧ 1 ≤ 10 * digitVal a + digitVal b
          ∧ 10 * digitVal a + digitVal b ≤ hi then
        some (10 * digitVal a + digitVal b, rest)
      else if a.isDigit ∧ 1 ≤ digitVal a ∧ digitVal a ≤ 9 then
        some (digitVal a, b :: rest)
      else none
  | [a] =>
      if a.isDigit ∧ 1 ≤ digitVal a ∧ digitVal a ≤ 9 then some (digitVal a, []) else none
  | [] => none

/-- Gregorian leap-year test. -/
def isLeapYear (y : Nat) : Bool := decide (y % 4 = 0 ∧ (y % 100 ≠ 0 ∨ y % 400 = 0))

/-- Number of days in a month. -/
def daysInMonth (y m : Nat) : Nat :=
  if m = 2 then (if isLeapYear y then 29 else 28)
  else if m = 4 ∨ m = 6 ∨ m = 9 ∨ m = 11 then 30
  else 31

/-- Python's `datetime.strptime(s, "%Y-%m-%d")`: `some (y, m, d)` when the
string parses as a valid calendar date, `none` when a `ValueError` is
raised. -/
def pyStrptime (s : String) : Option (Nat × Nat × Nat) :=
  match parse4 s.data with
  | none => none
  | some (y, r₁) =>
    match r₁ with
    | '-' :: r₂ =>
      match parseMD 12 r₂ with
      | none => none
      | some (m, r₃) =>
        match r₃ with
        | '-' :: r₄ =>
          match parseMD 31 r₄ with
          | none => none
          | some (d, r₅) =>
            if r₅ = [] ∧ 1 ≤ y ∧ d ≤ daysInMonth y m then some (y, m, d) else none
        | _ => none
    | _ => none

/-! ### Data model -/

/-- One row of the `expenses_test` table. -/
structure Expense where
  id : Nat
  date : String
  amount : Rat
  category : String
  subcategory : String
  note : String
  created_at : Nat
deriving DecidableEq, Repr

/-- The remote store: the table rows plus the server-side counters that
assign `id` and `created_at`. -/
structure Store where
  rows : List Expense
  nextId : Nat
  nextCreated : Nat
deriving DecidableEq, Repr

/-- The projection `select("id, date, amount, category, subcategory, note")`
used by `list_expenses` (`created_at` omitted). -/
structure ListedRow where
  id : Nat
  date : String
  amount : Rat
  category : String
  subcategory : String
  note : String
deriving DecidableEq, Repr

/-- Project a stored row to the columns `list_expenses` selects. -/
def projectRow (r : Expense) : ListedRow :=
  ⟨r.id, r.date, r.amount, r.category, r.subcategory, r.note⟩

/-- One element of the `summarize` result. -/
structure SummaryEntry where
  category : String
  total_amount : Rat
  count : Nat
deriving DecidableEq, Repr

/-- The `gte("date", a)` and `lte("date", b)` predicates combined. -/
def inRange (a b : String) (r : Expense) : Bool :=
  strLeB a.data r.date.data && strLeB r.date.data b.data

/-- The ordering `order("date", desc=True).order("id", desc=True)`:
`r₁` may precede `r₂` when its date is later, or the dates agree and its
id is at least as large. -/
def dateIdDescLe (r₁ r₂ : Expense) : Bool :=
  strLtB r₂.date.data r₁.date.data ||
    (decide (r₁.date = r₂.date) && decide (r₂.id ≤ r₁.id))

/-- Insert one row: the store assigns `id` and `created_at` and returns
the stored row. -/
def Store.insertRow (s : Store) (date : String) (amount : Rat)
    (category subcategory note : String) : Expense × Store :=
  let row : Expense := ⟨s.nextId, date, amount, category, subcategory, note, s.nextCreated⟩
  (row, ⟨s.rows ++ [row], s.nextId + 1, s.nextCreated + 1⟩)

/-! ### Operation responses -/

/-- Response of `add_expense`. -/
inductive AddResp where
  | success (id : Nat) (message : String) (data : Expense)
  | error (message : String)
deriving DecidableEq, Repr

/-- Response of `list_expenses` (bare sequence on success). -/
inductive ListResp where
  | rows (items : List ListedRow)
  | error (message : String)
deriving DecidableEq, Repr

/-- Response of `summarize` (bare sequence on success). -/
inductive SumResp where
  | entries (items : List SummaryEntry)
  | error (message : String)
deriving DecidableEq, Repr

/-- Response of `delete_expense`. -/
inductive DeleteResp where
  | success (message : String)
  | error (message : String)
deriving DecidableEq, Repr

/-- Response of `update_expense` (`data` carries the affected rows). -/
inductive UpdateResp where
  | success (message : String) (data : List Expense)
  | error (message : String)
deriving DecidableEq, Repr

/-! ### The five operations -/

/-- The `add_expense` tool: validate the date, insert, wrap any raised
error into an envelope. -/
def add_expense (date : String) (amount : Rat) (category subcategory note : String)
    (s : Store) (storeFail : Option String) : AddResp × Store × Nat :=
  match pyStrptime date with
  | none =>
      (.error "Invalid date format. Use YYYY-MM-DD: time data does not match format", s, 0)
  | some _ =>
    match storeFail with
    | some m => (.error ("Database error: " ++ m), s, 1)
    | none =>
      let ins := s.insertRow date amount category subcategory note
      (.success ins.1.id "Expense added successfully" ins.1, ins.2, 1)

/-- The rows `list_expenses` returns on a successful store call: the
range filter, the two-key descending order, then the projection. -/
def listRows (s : Store) (a b : String) : List ListedRow :=
  ((s.rows.filter (inRange a b)).mergeSort dateIdDescLe).map projectRow

/-- The `list_expenses` tool. -/
def list_expenses (start_date end_date : String) (s : Store)
    (storeFail : Option String) : ListResp × Store × Nat :=
  match storeFail with
  | some m => (.error ("Error listing expenses: " ++ m), s, 1)
  | none => (.rows (listRows s start_date end_date), s, 1)

/-- One pass of the aggregation loop body of `summarize`: bump the entry
of the matching category. -/
def bump (c : String) (a : Rat) (e : SummaryEntry) : SummaryEntry :=
  if e.category = c then
    { e with total_amount := e.total_amount + a, count := e.count + 1 }
  else e

/-- One iteration of `for expense in result.data` in `summarize`: create
the category's entry at zero if absent, then add the amount and count. -/
def groupStep (acc : List SummaryEntry) (p : String × Rat) : List SummaryEntry :=
  if p.1 ∈ acc.map SummaryEntry.category then
    acc.map (bump p.1 p.2)
  else
    acc ++ [⟨p.1, 0 + p.2, 0 + 1⟩]

/-- Sort key of `sorted(summary.values(), key=..., reverse=True)`:
descending by `total_amount`, stable. -/
def totalDescLe (e₁ e₂ : SummaryEntry) : Bool :=
  decide (e₂.total_amount ≤ e₁.total_amount)

/-- Aggregate the selected `(category, amount)` pairs as `summarize`
does: group in first-seen order, then sort by total descending. -/
def aggregate (pairs : List (String × Rat)) : List SummaryEntry :=
  (pairs.foldl groupStep []).mergeSort totalDescLe

/-- The `summarize` tool: range select, optional category filter (only
when the argument is truthy, i.e. non-null and non-empty), then the
in-memory aggregation. -/
def summarize (start_date end_date : String) (category : Option String)
    (s : Store) (storeFail : Option String) : SumResp × Store × Nat :=
  match storeFail with
  | some m => (.error ("Error summarizing expenses_test: " ++ m), s, 1)
  | none =>
    let base := s.rows.filter (inRange start_date end_date)
    let rows := match category with
      | some c => if c = "" then base else base.filter fun r => decide (r.category = c)
      | none => base
    (.entries (aggregate (rows.map fun r => (r.category, r.amount))), s, 1)

/-- The `delete_expense` tool: delete by id equality, report success
whether or not a row matched. -/
def delete_expense (expense_id : Nat) (s : Store)
    (storeFail : Option String) : DeleteResp × Store × Nat :=
  match storeFail with
  | some m => (.error ("Error deleting expense: " ++ m), s, 1)
  | none =>
      (.success ("Expense " ++ toString expense_id ++ " deleted successfully"),
       ⟨s.rows.filter fun r => decide (r.id ≠ expense_id), s.nextId, s.nextCreated⟩, 1)

/-- Apply the supplied fields of a partial update to one row; omitted
fields keep their prior value, `id` and `created_at` are untouched. -/
def applyUpdate (d : Option String) (am : Option Rat)
    (c sc nt : Option String) (r : Expense) : Expense :=
  { r with
    date := d.getD r.date
    amount := am.getD r.amount
    category := c.getD r.category
    subcategory := sc.getD r.subcategory
    note := nt.getD r.note }

/-- The part of `update_expense` after the date validation: fail fast on
an empty field-set, otherwise issue the single update keyed by id. -/
def updateGo (expense_id : Nat) (d : Option String) (am : Option Rat)
    (c sc nt : Option String) (s : Store) (storeFail : Option String) :
    UpdateResp × Store × Nat :=
  if d = none ∧ am = none ∧ c = none ∧ sc = none ∧ nt = none then
    (.error "No fields to update", s, 0)
  else
    match storeFail with
    | some m => (.error ("Error updating expense: " ++ m), s, 1)
    | none =>
      let newRows := s.rows.map fun r =>
        if r.id = expense_id then applyUpdate d am c sc nt r else r
      (.success ("Expense " ++ toString expense_id ++ " updated successfully")
         (newRows.filter fun r => decide (r.id = expense_id)),
       ⟨newRows, s.nextId, s.nextCreated⟩, 1)

/-- The `update_expense` tool: a supplied date is validated first (its
`ValueError` is caught before the empty-field check can run). -/
def update_expense (expense_id : Nat) (d : Option String) (am : Option Rat)
    (c sc nt : Option String) (s : Store) (storeFail : Option String) :
    UpdateResp × Store × Nat :=
  match d with
  | some x =>
    if pyStrptime x = none then
      (.error "Invalid date format. Use YYYY-MM-DD: time data does not match format", s, 0)
    else updateGo expense_id d am c sc nt s storeFail
  | none => updateGo expense_id d am c sc nt s storeFail

/-- The static `expense:///categories` resource. -/
def categories : List String :=
  ["Food & Dining", "Transportation", "Shopping", "Entertainment",
   "Bills & Utilities", "Healthcare", "Travel", "Education", "Business",
   "Personal Care", "Groceries", "Housing", "Insurance",
   "Gifts & Donations", "Other"]

/-! ### Derived quantities used in the statements -/

/-- Sum of the amounts of the pairs in category `c`. -/
def catTotal (ps : List (String × Rat)) (c : String) : Rat :=
  ((ps.filter fun p => decide (p.1 = c)).map Prod.snd).sum

/-- Number of pairs in category `c`. -/
def catCount (ps : List (String × Rat)) (c : String) : Nat :=
  (ps.filter fun p => decide (p.1 = c)).length

/-- Total recorded for category `c` in an accumulator (0 when absent). -/
def baseTotal (acc : List SummaryEntry) (c : String) : Rat :=
  ((acc.find? fun e => decide (e.category = c)).map SummaryEntry.total_amount).getD 0

/-- Count recorded for category `c` in an accumulator (0 when absent). -/
def baseCount (acc : List SummaryEntry) (c : String) : Nat :=
  ((acc.find? fun e => decide (e.category = c)).map SummaryEntry.count).getD 0

/-- A concrete two-row store (two rows on the same date, distinct ids). -/
def wStore : Store :=
  ⟨[⟨1, "2024-01-02", 5, "Food", "", "", 1⟩,
    ⟨2, "2024-01-02", 7, "Travel", "", "", 2⟩], 3, 3⟩

/-- A concrete one-row store. -/
def wStore1 : Store := ⟨[⟨1, "2024-01-01", 3, "Food", "", "", 1⟩], 2, 2⟩

/-- A concrete empty store. -/
def emptyStore : Store := ⟨[], 1, 1⟩

/-! ### Order facts about the byte-wise comparison -/

theorem strLtB_irrefl : ∀ s : List Char, strLtB s s = false
  | [] => rfl
  | a :: as => by simp [strLtB, strLtB_irrefl as]

theorem strLtB_asymm : ∀ s t : List Char, strLtB s t = true → strLtB t s = false
  | [], [], h => by simpa [strLtB] using h
  | [], _ :: _, _ => by simp [strLtB]
  | _ :: _, [], h => by simpa [strLtB] using h
  | a :: as, b :: bs, h => by
      by_cases hab : a < b
      · have hba : ¬ b < a := lt_asymm hab
        simp [strLtB, hab, hba]
      · by_cases hba : b < a
        · simp [strLtB, hab, hba] at h
        · simp only [strLtB, if_neg hab, if_neg hba] at h
          simp only [strLtB, if_neg hab, if_neg hba]
          exact strLtB_asymm as bs h

theorem strLtB_trans : ∀ s t u : List Char,
    strLtB s t = true → strLtB t u = true → strLtB s u = true
  | [], [], _, h₁, _ => by simpa [strLtB] using h₁
  | [], _ :: _, [], _, h₂ => by simpa [strLtB] using h₂
  | [], _ :: _, _ :: _, _, _ => by simp [strLtB]
  | _ :: _, [], _, h₁, _ => by simpa [strLtB] using h₁
  | _ :: _, _ :: _, [], _, h₂ => by simpa [strLtB] using h₂
  | a :: as, b :: bs, c :: cs, h₁, h₂ => by
      by_cases hab : a < b
      · by_cases hbc : b < c
        · simp [strLtB, lt_trans hab hbc]
        · by_cases hcb : c < b
          · simp [strLtB, hbc, hcb] at h₂
          · have hbc' : b = c := le_antisymm (not_lt.mp hcb) (not_lt.mp hbc)
            subst hbc'
            simp [strLtB, hab]
      · by_cases hba : b < a
        · simp [strLtB, hab, hba] at h₁
        · have hab' : a = b := le_antisymm (not_lt.mp hba) (not_lt.mp hab)
          subst hab'
          simp only [strLtB, if_neg hab, if_neg hba] at h₁
          by_cases hac : a < c
          · simp [strLtB, hac]
          · by_cases hca : c < a
            · simp [strLtB, hac, hca] at h₂
            · simp only [strLtB, if_neg hac, if_neg hca] at h₂ ⊢
              exact strLtB_trans as bs cs h₁ h₂

theorem strLtB_eq_of_not_lt : ∀ s t : List Char,
    strLtB s t = false → strLtB t s = false → s = t
  | [], [], _, _ => rfl
  | [], _ :: _, h, _ => by simp [strLtB] at h
  | _ :: _, [], _, h => by simp [strLtB] at h
  | a :: as, b :: bs, h₁, h₂ => by
      by_cases hab : a < b
      · simp [strLtB, hab] at h₁
      · by_cases hba : b < a
        · simp [strLtB, hba] at h₂
        · have hab' : a = b := le_antisymm (not_lt.mp hba) (not_lt.mp hab)
          subst hab'
          simp only [strLtB, if_neg hab, if_neg hba] at h₁ h₂
          rw [strLtB_eq_of_not_lt as bs h₁ h₂]

theorem strLeB_iff_not_lt (s t : List Char) : strLeB s t = true ↔ strLtB t s = false := by
  simp [strLeB]

/-- Transitivity of the two-key descending order used by `list_expenses`. -/
theorem dateIdDescLe_trans (x y z : Expense) :
    dateIdDescLe x y = true → dateIdDescLe y z = true → dateIdDescLe x z = true := by
  intro hxy hyz
  simp only [dateIdDescLe, Bool.or_eq_true, Bool.and_eq_true, decide_eq_true_eq] at hxy hyz ⊢
  rcases hxy with h₁ | ⟨hd₁, hi₁⟩
  · rcases hyz with h₂ | ⟨hd₂, hi₂⟩
    · exact Or.inl (strLtB_trans _ _ _ h₂ h₁)
    · rw [hd₂] at h₁
      exact Or.inl h₁
  · rcases hyz with h₂ | ⟨hd₂, hi₂⟩
    · rw [hd₁]
      exact Or.inl h₂
    · exact Or.inr ⟨hd₁.trans hd₂, le_trans hi₂ hi₁⟩

/-- Totality of the two-key descending order used by `list_expenses`. -/
theorem dateIdDescLe_total (x y : Expense) :
    (dateIdDescLe x y || dateIdDescLe y x) = true := by
  simp only [dateIdDescLe, Bool.or_eq_true, Bool.and_eq_true, decide_eq_true_eq]
  by_cases h₁ : strLtB y.date.data x.date.data = true
  · exact Or.inl (Or.inl h₁)
  · by_cases h₂ : strLtB x.date.data y.date.data = true
    · exact Or.inr (Or.inl h₂)
    · have hd : x.date = y.date :=
        String.ext (strLtB_eq_of_not_lt _ _
          (Bool.not_eq_true _ ▸ h₂) (Bool.not_eq_true _ ▸ h₁))
      rcases Nat.le_total y.id x.id with hi | hi
      · exact Or.inl (Or.inr ⟨hd, hi⟩)
      · exact Or.inr (Or.inr ⟨hd.symm, hi⟩)

/-- Transitivity of the descending-total order used by `summarize`. -/
theorem totalDescLe_trans (x y z : SummaryEntry) :
    totalDescLe x y = true → totalDescLe y z = true → totalDescLe x z = true := by
  simp only [totalDescLe, decide_eq_true_eq]
  exact fun h₁ h₂ => le_trans h₂ h₁

/-- Totality of the descending-total order used by `summarize`. -/
theorem totalDescLe_total (x y : SummaryEntry) :
    (totalDescLe x y || totalDescLe y x) = true := by
  simp only [totalDescLe, Bool.or_eq_true, decide_eq_true_eq]
  exact le_total y.total_amount x.total_amount

/-! ### Correctness of the aggregation loop of `summarize` -/

theorem bump_category (c : String) (a : Rat) (e : SummaryEntry) :
    (bump c a e).category = e.category := by
  unfold bump
  split <;> rfl

theorem groupStep_map_category (acc : List SummaryEntry) (p : String × Rat) :
    (groupStep acc p).map SummaryEntry.category =
      if p.1 ∈ acc.map SummaryEntry.category then acc.map SummaryEntry.category
      else acc.map SummaryEntry.category ++ [p.1] := by
  unfold groupStep
  split
  next h =>
    rw [List.map_map]
    exact List.map_congr_left fun e _ => bump_category p.1 p.2 e
  next h =>
    simp

theorem groupStep_nodup (acc : List SummaryEntry) (p : String × Rat)
    (h : (acc.map SummaryEntry.category).Nodup) :
    ((groupStep acc p).map SummaryEntry.category).Nodup := by
  rw [groupStep_map_category]
  split
  · exact h
  next hp => simp [List.nodup_append, h, List.disjoint_singleton, hp]

theorem groupStep_mem_category (acc : List SummaryEntry) (p : String × Rat) (c : String) :
    c ∈ (groupStep acc p).map SummaryEntry.category ↔
      c ∈ acc.map SummaryEntry.category ∨ c = p.1 := by
  rw [groupStep_map_category]
  split
  next h =>
    constructor
    · exact Or.inl
    · rintro (hc | rfl)
      · exact hc
      · exact h
  next h => simp

theorem baseTotal_groupStep (acc : List SummaryEntry) (p : String × Rat) (c : String) :
    baseTotal (groupStep acc p) c = baseTotal acc c + (if c = p.1 then p.2 else 0) := by
  unfold groupStep
  split
  next hmem =>
    simp only [baseTotal, List.find?_map]
    have hpred : ((fun e => decide (e.category = c)) ∘ bump p.1 p.2)
        = fun e => decide (e.category = c) := by
      funext e
      simp [Function.comp, bump_category]
    rw [hpred]
    cases hf : acc.find? fun e => decide (e.category = c) with
    | none =>
        have hne : ¬ c = p.1 := by
          intro hcp
          subst hcp
          obtain ⟨e, he, hce⟩ := List.mem_map.mp hmem
          have := List.find?_eq_none.mp hf e he
          simp [hce] at this
        simp [hne]
    | some e =>
        have hce : e.category = c := by simpa using List.find?_some hf
        simp only [Option.map_some', Option.getD_some]
        unfold bump
        by_cases hcp : c = p.1
        · rw [if_pos (by rw [hce, hcp]), if_pos hcp]
        · rw [if_neg (by rw [hce]; exact hcp), if_neg hcp, add_zero]
  next hmem =>
    simp only [baseTotal, List.find?_append]
    cases hf : acc.find? fun e => decide (e.category = c) with
    | some e =>
        have hce : e.category = c := by simpa using List.find?_some hf
        have hne : ¬ c = p.1 := by
          intro hcp
          exact hmem (List.mem_map.mpr
            ⟨e, List.mem_of_find?_eq_some hf, hce.trans hcp⟩)
        simp [Option.or, hne]
    | none =>
        by_cases hcp : c = p.1
        · subst hcp
          rw [List.find?_cons_of_pos _ (by simp)]
          simp
        · rw [List.find?_cons_of_neg _
            (by simp only [decide_eq_true_eq]; exact fun hh => hcp hh.symm)]
          simp [Option.or, hcp]

theorem baseCount_groupStep (acc : List SummaryEntry) (p : String × Rat) (c : String) :
    baseCount (groupStep acc p) c = baseCount acc c + (if c = p.1 then 1 else 0) := by
  unfold groupStep
  split
  next hmem =>
    simp only [baseCount, List.find?_map]
    have hpred : ((fun e => decide (e.category = c)) ∘ bump p.1 p.2)
        = fun e => decide (e.category = c) := by
      funext e
      simp [Function.comp, bump_category]
    rw [hpred]
    cases hf : acc.find? fun e => decide (e.category = c) with
    | none =>
        have hne : ¬ c = p.1 := by
          intro hcp
          subst hcp
          obtain ⟨e, he, hce⟩ := List.mem_map.mp hmem
          have := List.find?_eq_none.mp hf e he
          simp [hce] at this
        simp [hne]
    | some e =>
        have hce : e.category = c := by simpa using List.find?_some hf
        simp only [Option.map_some', Option.getD_some]
        unfold bump
        by_cases hcp : c = p.1
        · rw [if_pos (by rw [hce, hcp]), if_pos hcp]
        · rw [if_neg (by rw [hce]; exact hcp), if_neg hcp, add_zero]
  next hmem =>
    simp only [baseCount, List.find?_append]
    cases hf : acc.find? fun e => decide (e.category = c) with
    | some e =>
        have hce : e.category = c := by simpa using List.find?_some hf
        have hne : ¬ c = p.1 := by
          intro hcp
          exact hmem (List.mem_map.mpr
            ⟨e, List.mem_of_find?_eq_some hf, hce.trans hcp⟩)
        simp [Option.or, hne]
    | none =>
        by_cases hcp : c = p.1
        · subst hcp
          rw [List.find?_cons_of_pos _ (by simp)]
          simp
        · rw [List.find?_cons_of_neg _
            (by simp only [decide_eq_true_eq]; exact fun hh => hcp hh.symm)]
          simp [Option.or, hcp]

theorem find?_category_self : ∀ (acc : List SummaryEntry),
    (acc.map SummaryEntry.category).Nodup →
    ∀ e ∈ acc, acc.find? (fun x => decide (x.category = e.category)) = some e
  | [], _, e, he => by simp at he
  | a :: rest, h, e, he => by
      simp only [List.map_cons, List.nodup_cons] at h
      obtain ⟨ha, hrest⟩ := h
      rcases List.mem_cons.mp he with rfl | hmem
      · exact List.find?_cons_of_pos _ (by simp)
      · have hne : ¬ a.category = e.category := by
          intro heq
          exact ha (heq ▸ List.mem_map.mpr ⟨e, hmem, rfl⟩)
        rw [List.find?_cons_of_neg _ (by simpa using hne)]
        exact find?_category_self rest hrest e hmem

theorem baseTotal_self (acc : List SummaryEntry)
    (h : (acc.map SummaryEntry.category).Nodup)
    (e : SummaryEntry) (he : e ∈ acc) :
    baseTotal acc e.category = e.total_amount := by
  simp [baseTotal, find?_category_self acc h e he]

theorem baseCount_self (acc : List SummaryEntry)
    (h : (acc.map SummaryEntry.category).Nodup)
    (e : SummaryEntry) (he : e ∈ acc) :
    baseCount acc e.category = e.count := by
  simp [baseCount, find?_category_self acc h e he]

theorem catTotal_cons (p : String × Rat) (ps : List (String × Rat)) (c : String) :
    catTotal (p :: ps) c = (if c = p.1 then p.2 else 0) + catTotal ps c := by
  by_cases h : c = p.1
  · simp [catTotal, List.filter_cons, h]
  · have h' : ¬ p.1 = c := fun hh => h hh.symm
    simp [catTotal, List.filter_cons, h, h']

theorem catCount_cons (p : String × Rat) (ps : List (String × Rat)) (c : String) :
    catCount (p :: ps) c = (if c = p.1 then 1 else 0) + catCount ps c := by
  unfold catCount
  rw [List.filter_cons]
  by_cases h : c = p.1
  · rw [if_pos (by simp [h]), if_pos h, List.length_cons]
    omega
  · rw [if_neg (by simp only [decide_eq_true_eq]; exact fun hh => h hh.symm), if_neg h]
    omega

theorem groupFold_spec : ∀ (ps : List (String × Rat)) (acc : List SummaryEntry),
    (acc.map SummaryEntry.category).Nodup →
    ((ps.foldl groupStep acc).map SummaryEntry.category).Nodup
    ∧ (∀ c, c ∈ (ps.foldl groupStep acc).map SummaryEntry.category ↔
        c ∈ acc.map SummaryEntry.category ∨ c ∈ ps.map Prod.fst)
    ∧ ∀ e ∈ ps.foldl groupStep acc,
        e.total_amount = baseTotal acc e.category + catTotal ps e.category
        ∧ e.count = baseCount acc e.category + catCount ps e.category
  | [], acc, h => by
      refine ⟨h, by simp, fun e he => ?_⟩
      rw [List.foldl_nil] at he
      constructor
      · rw [baseTotal_self acc h e he]
        simp [catTotal]
      · rw [baseCount_self acc h e he]
        simp [catCount]
  | p :: ps, acc, h => by
      have h' := groupStep_nodup acc p h
      obtain ⟨n1, n2, n3⟩ := groupFold_spec ps (groupStep acc p) h'
      rw [List.foldl_cons]
      refine ⟨n1, fun c => ?_, fun e he => ?_⟩
      · rw [n2 c, groupStep_mem_category]
        simp only [List.map_cons, List.mem_cons]
        tauto
      · obtain ⟨ht, hc⟩ := n3 e he
        constructor
        · rw [ht, baseTotal_groupStep, catTotal_cons]
          ring
        · rw [hc, baseCount_groupStep, catCount_cons]
          ring

theorem aggregate_spec (ps : List (String × Rat)) :
    ((aggregate ps).map SummaryEntry.category).Nodup
    ∧ (∀ c, c ∈ (aggregate ps).map SummaryEntry.category ↔ c ∈ ps.map Prod.fst)
    ∧ (∀ e ∈ aggregate ps,
        e.total_amount = catTotal ps e.category ∧ e.count = catCount ps e.category)
    ∧ (aggregate ps).Pairwise fun x y => y.total_amount ≤ x.total_amount := by
  obtain ⟨n1, n2, n3⟩ := groupFold_spec ps [] (by simp)
  have hperm : (aggregate ps).Perm (ps.foldl groupStep []) :=
    List.mergeSort_perm (ps.foldl groupStep []) totalDescLe
  refine ⟨?_, ?_, ?_, ?_⟩
  · exact ((hperm.map SummaryEntry.category).nodup_iff).mpr n1
  · intro c
    rw [(hperm.map SummaryEntry.category).mem_iff, n2 c]
    simp
  · intro e he
    have he' : e ∈ ps.foldl groupStep [] := hperm.subset he
    obtain ⟨ht, hc⟩ := n3 e he'
    constructor
    · rw [ht]
      simp [baseTotal]
    · rw [hc]
      simp [baseCount]
  · have hs := List.sorted_mergeSort totalDescLe_trans totalDescLe_total
      (ps.foldl groupStep [])
    exact hs.imp fun hab => by simpa [totalDescLe] using hab

/-! ### Relating the selected pairs of `summarize` to the rows of
`list_expenses` -/

theorem catTotal_map_pairs (base : List Expense) (c : String) :
    catTotal (base.map fun r => (r.category, r.amount)) c
      = ((base.filter fun r => decide (r.category = c)).map Expense.amount).sum := by
  unfold catTotal
  rw [List.filter_map]
  have hcomp : ((fun p : String × Rat => decide (p.1 = c))
      ∘ fun r : Expense => (r.category, r.amount))
      = fun r : Expense => decide (r.category = c) := rfl
  rw [hcomp, List.map_map]
  rfl

theorem catCount_map_pairs (base : List Expense) (c : String) :
    catCount (base.map fun r => (r.category, r.amount)) c
      = (base.filter fun r => decide (r.category = c)).length := by
  unfold catCount
  rw [List.filter_map]
  have hcomp : ((fun p : String × Rat => decide (p.1 = c))
      ∘ fun r : Expense => (r.category, r.amount))
      = fun r : Expense => decide (r.category = c) := rfl
  rw [hcomp, List.length_map]

theorem listRows_catFilter_perm (s : Store) (a b c : String) :
    ((listRows s a b).filter fun lr => decide (lr.category = c)).Perm
      (((s.rows.filter (inRange a b)).filter fun r => decide (r.category = c)).map
        projectRow) := by
  unfold listRows
  rw [List.filter_map]
  have hcomp : ((fun lr : ListedRow => decide (lr.category = c)) ∘ projectRow)
      = fun r : Expense => decide (r.category = c) := rfl
  rw [hcomp]
  exact ((List.mergeSort_perm _ dateIdDescLe).filter _).map projectRow

theorem listRows_map_category_perm (s : Store) (a b : String) :
    ((listRows s a b).map ListedRow.category).Perm
      ((s.rows.filter (inRange a b)).map Expense.category) := by
  unfold listRows
  rw [List.map_map]
  have hcomp : (ListedRow.category ∘ projectRow) = Expense.category := rfl
  rw [hcomp]
  exact (List.mergeSort_perm _ _).map Expense.category

/-! ### The claims -/

/-- C1: every operation, for every input and every store outcome, returns
a structured result — a success payload or an error envelope — and never
lets a raised exception escape its own boundary (each possible failure is
turned into one of the result constructors). -/
theorem operations_return_structured_results :
    (∀ d am cat sub nt s sf,
        (∃ i msg data, (add_expense d am cat sub nt s sf).1 = .success i msg data)
        ∨ ∃ msg, (add_expense d am cat sub nt s sf).1 = .error msg)
    ∧ (∀ a b s sf,
        (∃ items, (list_expenses a b s sf).1 = .rows items)
        ∨ ∃ msg, (list_expenses a b s sf).1 = .error msg)
    ∧ (∀ a b cat s sf,
        (∃ items, (summarize a b cat s sf).1 = .entries items)
        ∨ ∃ msg, (summarize a b cat s sf).1 = .error msg)
    ∧ (∀ i s sf,
        (∃ msg, (delete_expense i s sf).1 = .success msg)
        ∨ ∃ msg, (delete_expense i s sf).1 = .error msg)
    ∧ (∀ i d am cat sub nt s sf,
        (∃ msg data, (update_expense i d am cat sub nt s sf).1 = .success msg data)
        ∨ ∃ msg, (update_expense i d am cat sub nt s sf).1 = .error msg) := by
  refine ⟨?_, ?_, ?_, ?_, ?_⟩
  · intro d am cat sub nt s sf
    cases h : (add_expense d am cat sub nt s sf).1 with
    | success i msg data => exact Or.inl ⟨i, msg, data, rfl⟩
    | error msg => exact Or.inr ⟨msg, rfl⟩
  · intro a b s sf
    cases h : (list_expenses a b s sf).1 with
    | rows items => exact Or.inl ⟨items, rfl⟩
    | error msg => exact Or.inr ⟨msg, rfl⟩
  · intro a b cat s sf
    cases h : (summarize a b cat s sf).1 with
    | entries items => exact Or.inl ⟨items, rfl⟩
    | error msg => exact Or.inr ⟨msg, rfl⟩
  · intro i s sf
    cases h : (delete_expense i s sf).1 with
    | success msg => exact Or.inl ⟨msg, rfl⟩
    | error msg => exact Or.inr ⟨msg, rfl⟩
  · intro i d am cat sub nt s sf
    cases h : (update_expense i d am cat sub nt s sf).1 with
    | success msg data => exact Or.inl ⟨msg, data, rfl⟩
    | error msg => exact Or.inr ⟨msg, rfl⟩

/-- C4: an input whose date string fails `YYYY-MM-DD` parsing makes
`add_expense` return an error envelope naming the expected format, with
no store call issued and the store unchanged. -/
theorem add_expense_invalid_date_rejected (d : String) (am : Rat)
    (cat sub nt : String) (s : Store) (sf : Option String)
    (h : pyStrptime d = none) :
    add_expense d am cat sub nt s sf
      = (.error ("Invalid date format. Use " ++ "YYYY-MM-DD"
          ++ ": time data does not match format"), s, 0) := by
  unfold add_expense
  rw [h]
  have hmsg : ("Invalid date format. Use " ++ "YYYY-MM-DD"
      ++ ": time data does not match format" : String)
      = "Invalid date format. Use YYYY-MM-DD: time data does not match format" := by decide
  rw [hmsg]

/-- Witness for C4 at the slash-separated date of the spec's example. -/
theorem add_expense_invalid_date_rejected_witness :
    pyStrptime "2024/01/01" = none
    ∧ add_expense "2024/01/01" 5 "Food" "" "" emptyStore none
        = (.error ("Invalid date format. Use " ++ "YYYY-MM-DD"
            ++ ": time data does not match format"), emptyStore, 0) :=
  ⟨by decide,
   add_expense_invalid_date_rejected "2024/01/01" 5 "Food" "" "" emptyStore none
     (by decide)⟩

/-- C6: `update_expense` with every optional field omitted returns the
"No fields to update" error envelope, performs no store call and leaves
the store unchanged (for every store outcome). -/
theorem update_expense_empty_fieldset (eid : Nat) (s : Store) (sf : Option String) :
    update_expense eid none none none none none s sf
      = (.error "No fields to update", s, 0) := rfl

/-- C7: when the store call succeeds, `delete_expense` reports a success
envelope whose message names the id, identically for every store state —
deleting a missing id is indistinguishable from deleting a present one. -/
theorem delete_expense_reports_success (eid : Nat) (s₁ s₂ : Store) :
    (delete_expense eid s₁ none).1
        = .success ("Expense " ++ toString eid ++ " deleted successfully")
    ∧ (delete_expense eid s₁ none).1 = (delete_expense eid s₂ none).1
    ∧ (delete_expense eid s₁ none).2.2 = 1
    ∧ (delete_expense eid s₁ none).2.1.rows
        = s₁.rows.filter fun r => decide (r.id ≠ eid) :=
  ⟨rfl, rfl, rfl, rfl⟩

/-- C9: `summarize` with `category = some ""` behaves identically to
`summarize` with the category omitted, because the filter is applied only
when the argument is truthy. -/
theorem summarize_empty_category_equals_none (a b : String) (s : Store)
    (sf : Option String) :
    summarize a b (some "") s sf = summarize a b none s sf := by
  unfold summarize
  cases sf with
  | some m => rfl
  | none => rfl

/-- C10: a date string that is not in strict zero-padded `YYYY-MM-DD`
form (here `"2024-1-1"`, 8 characters instead of 10) is nevertheless
accepted by the `strptime`-based validation, and `add_expense` inserts
the record with the date stored exactly as given. -/
theorem add_expense_accepts_unpadded_date :
    "2024-1-1".data.length = 8
    ∧ pyStrptime "2024-1-1" = some (2024, 1, 1)
    ∧ add_expense "2024-1-1" 5 "Food" "" "" emptyStore none
        = (.success 1 "Expense added successfully"
            ⟨1, "2024-1-1", 5, "Food", "", "", 1⟩,
           ⟨[⟨1, "2024-1-1", 5, "Food", "", "", 1⟩], 2, 2⟩, 1) :=
  ⟨by decide, by decide, by decide⟩

/-- C2: on a successful store call, `list_expenses` returns exactly the
records (projected without `created_at`) whose date lies in the inclusive
range, sorted by date descending with ties broken by id descending, and
an empty match yields the empty sequence, not an error.  Ids are assumed
pairwise distinct, as the store assigns them uniquely. -/
theorem list_expenses_range_sorted_projected (a b : String) (s : Store)
    (hids : (s.rows.map Expense.id).Nodup) :
    ∃ l, list_expenses a b s none = (.rows l, s, 1)
      ∧ l.Perm ((s.rows.filter (inRange a b)).map projectRow)
      ∧ (∀ lr ∈ l, strLeB a.data lr.date.data = true
          ∧ strLeB lr.date.data b.data = true)
      ∧ l.Pairwise (fun x y => strLtB y.date.data x.date.data = true
          ∨ (x.date = y.date ∧ y.id < x.id))
      ∧ ((∀ r ∈ s.rows, inRange a b r = false) → l = []) := by
  refine ⟨listRows s a b, rfl, ?_, ?_, ?_, ?_⟩
  · exact (List.mergeSort_perm _ _).map projectRow
  · intro lr hlr
    obtain ⟨r, hr, rfl⟩ := List.mem_map.mp hlr
    have hr' : r ∈ s.rows.filter (inRange a b) := (List.mergeSort_perm _ _).subset hr
    have hrange := (List.mem_filter.mp hr').2
    unfold inRange at hrange
    rw [Bool.and_eq_true] at hrange
    exact ⟨hrange.1, hrange.2⟩
  · unfold listRows
    rw [List.pairwise_map]
    have hsorted := List.sorted_mergeSort dateIdDescLe_trans dateIdDescLe_total
      (s.rows.filter (inRange a b))
    have hnd₀ : ((s.rows.filter (inRange a b)).map Expense.id).Nodup :=
      hids.sublist ((List.filter_sublist s.rows).map Expense.id)
    have hnd : (((s.rows.filter (inRange a b)).mergeSort dateIdDescLe).map
        Expense.id).Nodup :=
      ((List.mergeSort_perm _ dateIdDescLe).map Expense.id).nodup_iff.mpr hnd₀
    have hne : ((s.rows.filter (inRange a b)).mergeSort dateIdDescLe).Pairwise
        fun x y => x.id ≠ y.id := List.pairwise_map.mp hnd
    refine (hsorted.and hne).imp ?_
    intro x y hxy
    obtain ⟨hle, hxyne⟩ := hxy
    unfold dateIdDescLe at hle
    rw [Bool.or_eq_true, Bool.and_eq_true, decide_eq_true_eq, decide_eq_true_eq] at hle
    rcases hle with hlt | ⟨hdeq, hile⟩
    · exact Or.inl hlt
    · exact Or.inr ⟨hdeq, Nat.lt_of_le_of_ne hile fun hh => hxyne hh.symm⟩
  · intro hnone
    have hfil : s.rows.filter (inRange a b) = [] :=
      List.filter_eq_nil_iff.mpr fun r hr => by simp [hnone r hr]
    unfold listRows
    rw [hfil, List.mergeSort_nil, List.map_nil]

/-- Witness for C2 at a concrete two-row store whose rows share a date. -/
theorem list_expenses_range_sorted_projected_witness :
    (wStore.rows.map Expense.id).Nodup
    ∧ ∃ l, list_expenses "2024-01-01" "2024-12-31" wStore none = (.rows l, wStore, 1)
        ∧ l.Perm ((wStore.rows.filter (inRange "2024-01-01" "2024-12-31")).map
            projectRow)
        ∧ (∀ lr ∈ l, strLeB "2024-01-01".data lr.date.data = true
            ∧ strLeB lr.date.data "2024-12-31".data = true)
        ∧ l.Pairwise (fun x y => strLtB y.date.data x.date.data = true
            ∨ (x.date = y.date ∧ y.id < x.id))
        ∧ ((∀ r ∈ wStore.rows, inRange "2024-01-01" "2024-12-31" r = false) → l = []) :=
  ⟨by decide,
   list_expenses_range_sorted_projected "2024-01-01" "2024-12-31" wStore (by decide)⟩

/-- C3: `summarize` over a range (category omitted) returns one entry per
distinct category among exactly the records `list_expenses` over the same
range would return; each entry's total is the sum of those records'
amounts and its count their number; entries are sorted by total
descending; no zero-count category appears. -/
theorem summarize_totals_match_listing (a b : String) (s : Store) :
    ∃ es, summarize a b none s none = (.entries es, s, 1)
      ∧ (es.map SummaryEntry.category).Nodup
      ∧ (∀ c, c ∈ es.map SummaryEntry.category
          ↔ c ∈ (listRows s a b).map ListedRow.category)
      ∧ (∀ e ∈ es,
          e.total_amount
              = (((listRows s a b).filter fun lr => decide (lr.category = e.category)).map
                  ListedRow.amount).sum
          ∧ e.count
              = ((listRows s a b).filter fun lr => decide (lr.category = e.category)).length
          ∧ 0 < e.count)
      ∧ es.Pairwise fun x y => y.total_amount ≤ x.total_amount := by
  obtain ⟨n1, n2, n3, n4⟩ :=
    aggregate_spec ((s.rows.filter (inRange a b)).map fun r => (r.category, r.amount))
  refine ⟨_, rfl, n1, ?_, ?_, n4⟩
  · intro c
    rw [n2 c, List.map_map]
    have hcomp : (Prod.fst ∘ fun r : Expense => (r.category, r.amount))
        = Expense.category := rfl
    rw [hcomp]
    exact ((listRows_map_category_perm s a b).mem_iff).symm
  · intro e he
    obtain ⟨ht, hc⟩ := n3 e he
    refine ⟨?_, ?_, ?_⟩
    · rw [ht, catTotal_map_pairs]
      have hsum := ((listRows_catFilter_perm s a b e.category).map ListedRow.amount).sum_eq
      rw [List.map_map] at hsum
      exact hsum.symm
    · rw [hc, catCount_map_pairs]
      have hlen := (listRows_catFilter_perm s a b e.category).length_eq
      rw [List.length_map] at hlen
      exact hlen.symm
    · rw [hc]
      have hcat : e.category ∈ ((s.rows.filter (inRange a b)).map
          fun r => (r.category, r.amount)).map Prod.fst :=
        (n2 e.category).mp (List.mem_map.mpr ⟨e, he, rfl⟩)
      obtain ⟨q, hq, hq1⟩ := List.mem_map.mp hcat
      have hqf : q ∈ ((s.rows.filter (inRange a b)).map
          fun r => (r.category, r.amount)).filter
            fun p => decide (p.1 = e.category) :=
        List.mem_filter.mpr ⟨hq, by simp [hq1]⟩
      exact List.length_pos_of_mem hqf

/-- C5: an `update_expense` call that supplies at least one field (with a
valid date when a date is supplied) issues exactly one update keyed by
the id, touching only the supplied fields: omitted fields keep their
prior values, and `id` and `created_at` are never modified. -/
theorem update_expense_touches_only_supplied (eid : Nat) (d : Option String)
    (am : Option Rat) (c sc nt : Option String) (s : Store)
    (hsome : ¬ (d = none ∧ am = none ∧ c = none ∧ sc = none ∧ nt = none))
    (hdate : ∀ x, d = some x → (pyStrptime x).isSome) :
    update_expense eid d am c sc nt s none
      = (.success ("Expense " ++ toString eid ++ " updated successfully")
          ((s.rows.map fun r => if r.id = eid then applyUpdate d am c sc nt r else r).filter
             fun r => decide (r.id = eid)),
         ⟨s.rows.map fun r => if r.id = eid then applyUpdate d am c sc nt r else r,
          s.nextId, s.nextCreated⟩, 1)
    ∧ ∀ r ∈ s.rows,
        ((if r.id = eid then applyUpdate d am c sc nt r else r).id = r.id)
      ∧ ((if r.id = eid then applyUpdate d am c sc nt r else r).created_at = r.created_at)
      ∧ (r.id ≠ eid → (if r.id = eid then applyUpdate d am c sc nt r else r) = r)
      ∧ ((applyUpdate d am c sc nt r).date = d.getD r.date
         ∧ (applyUpdate d am c sc nt r).amount = am.getD r.amount
         ∧ (applyUpdate d am c sc nt r).category = c.getD r.category
         ∧ (applyUpdate d am c sc nt r).subcategory = sc.getD r.subcategory
         ∧ (applyUpdate d am c sc nt r).note = nt.getD r.note) := by
  constructor
  · unfold update_expense
    cases d with
    | none =>
        unfold updateGo
        rw [if_neg hsome]
    | some x =>
        have hx : ¬ pyStrptime x = none := by
          intro hcontra
          have hs := hdate x rfl
          rw [hcontra] at hs
          simp at hs
        show (if pyStrptime x = none then
            ((UpdateResp.error
              "Invalid date format. Use YYYY-MM-DD: time data does not match format"), s, 0)
          else updateGo eid (some x) am c sc nt s none) = _
        rw [if_neg hx]
        unfold updateGo
        rw [if_neg hsome]
  · intro r hr
    refine ⟨?_, ?_, ?_, rfl, rfl, rfl, rfl, rfl⟩
    · by_cases h : r.id = eid <;> simp [h, applyUpdate]
    · by_cases h : r.id = eid <;> simp [h, applyUpdate]
    · intro h
      rw [if_neg h]

/-- Witness for C5: updating only the amount of the single stored row. -/
theorem update_expense_touches_only_supplied_witness :
    (¬ ((none : Option String) = none ∧ (some (5 : Rat)) = none
        ∧ (none : Option String) = none ∧ (none : Option String) = none
        ∧ (none : Option String) = none))
    ∧ update_expense 1 none (some 5) none none none wStore1 none
        = (.success ("Expense " ++ toString 1 ++ " updated successfully")
            ((wStore1.rows.map fun r =>
                if r.id = 1 then applyUpdate none (some 5) none none none r else r).filter
               fun r => decide (r.id = 1)),
           ⟨wStore1.rows.map fun r =>
              if r.id = 1 then applyUpdate none (some 5) none none none r else r,
            wStore1.nextId, wStore1.nextCreated⟩, 1) :=
  ⟨by decide,
   (update_expense_touches_only_supplied 1 none (some 5) none none none wStore1
     (by decide) (by simp)).1⟩

/-- C8: for a valid date inside the listed range, `add_expense` followed
by `list_expenses` returns a record whose fields equal the inserted
values exactly, carrying the newly assigned id, which was not present
before the insert (ids being store-assigned strictly below the
counter). -/
theorem add_then_list_returns_inserted (d : String) (am : Rat)
    (cat sub nt : String) (a b : String) (s : Store)
    (hdate : (pyStrptime d).isSome)
    (ha : strLeB a.data d.data = true) (hb : strLeB d.data b.data = true)
    (hwf : ∀ r ∈ s.rows, r.id < s.nextId) :
    s.nextId ∉ s.rows.map Expense.id
    ∧ ∃ row s', add_expense d am cat sub nt s none
          = (.success s.nextId "Expense added successfully" row, s', 1)
        ∧ row.id = s.nextId ∧ row.date = d ∧ row.amount = am ∧ row.category = cat
        ∧ row.subcategory = sub ∧ row.note = nt
        ∧ ∃ l, list_expenses a b s' none = (.rows l, s', 1) ∧ projectRow row ∈ l := by
  obtain ⟨v, hv⟩ := Option.isSome_iff_exists.mp hdate
  constructor
  · intro hmem
    obtain ⟨r, hr, hrid⟩ := List.mem_map.mp hmem
    exact absurd hrid (Nat.ne_of_lt (hwf r hr))
  · refine ⟨⟨s.nextId, d, am, cat, sub, nt, s.nextCreated⟩,
      ⟨s.rows ++ [⟨s.nextId, d, am, cat, sub, nt, s.nextCreated⟩],
       s.nextId + 1, s.nextCreated + 1⟩,
      ?_, rfl, rfl, rfl, rfl, rfl, rfl, ?_⟩
    · unfold add_expense
      rw [hv]
      rfl
    · refine ⟨_, rfl, ?_⟩
      unfold listRows
      refine List.mem_map_of_mem projectRow ?_
      rw [(List.mergeSort_perm _ _).mem_iff, List.mem_filter]
      constructor
      · exact List.mem_append.mpr (Or.inr (List.mem_singleton.mpr rfl))
      · unfold inRange
        rw [Bool.and_eq_true]
        exact ⟨ha, hb⟩

/-- Witness for C8: inserting into the empty store and listing the year. -/
theorem add_then_list_returns_inserted_witness :
    (pyStrptime "2024-06-15").isSome
    ∧ strLeB "2024-01-01".data "2024-06-15".data = true
    ∧ strLeB "2024-06-15".data "2024-12-31".data = true
    ∧ (1 : Nat) ∉ emptyStore.rows.map Expense.id :=
  ⟨by decide, by decide, by decide,
   (add_then_list_returns_inserted "2024-06-15" 5 "Food" "" "" "2024-01-01"
     "2024-12-31" emptyStore (by decide) (by decide) (by decide)
     (by simp [emptyStore])).1⟩
